import Mathlib

/-!
Verification of the centerpage-deepscan job-orchestration pipeline.

The definitions below are a shallow embedding of the operative revision of
the service (the multi-agent `DeepScanService` whose `performMultipleDeepScan`
the BullMQ worker imports), of the submission gateway in `src/index.js`, and
of the worker in `src/jobs/worker.js`.  External collaborators (the headless
browser, the HTTP fetch, the OpenAI calls, the tldts `getDomain` helper and
the BullMQ queue) are modelled as explicit oracles or, where noted, from the
specification's description of their contract.
-/

/-- JS `String.prototype.trim`: strip whitespace from both ends.
(Character-list implementation so that concrete runs reduce in the kernel.) -/
def jsTrim (s : String) : String :=
  ⟨((s.data.dropWhile Char.isWhitespace).reverse.dropWhile Char.isWhitespace).reverse⟩

/-- JS `s.trim() || dflt`: the trimmed text if nonempty, else the default.
Used for the `title` and `h1` fields of a snapshot. -/
def textOrDefault (s dflt : String) : String :=
  if jsTrim s = "" then dflt else jsTrim s

/-- JS `attr?.trim() || dflt` on a possibly-absent attribute. -/
def attrOrDefault (o : Option String) (dflt : String) : String :=
  match o with
  | none => dflt
  | some s => if jsTrim s = "" then dflt else jsTrim s

/-- Number of maximal non-whitespace runs in a character list; the `inWord`
flag says whether the previous character was part of a run. -/
def countWordsAux (inWord : Bool) : List Char → Nat
  | [] => 0
  | c :: rest =>
    if c.isWhitespace then countWordsAux false rest
    else (if inWord then 0 else 1) + countWordsAux true rest

/-- The v3.0 `estimateWordCount`: `text.trim().split(/\s+/).length` (no
null-guard and no `filter(Boolean)` in this revision).  On the trimmed text
the regex split yields one element per maximal non-whitespace run — except
that splitting the empty string yields one (empty) element, so whitespace-only
input counts as 1. -/
def estimateWordCount (text : String) : Nat :=
  if jsTrim text = "" then 1 else countWordsAux false (jsTrim text).data

/-- The case-insensitive scheme test `/^(https?:\/\/)/i.test(url)`. -/
def hasHttpScheme (url : String) : Bool :=
  "http://".data.isPrefixOf (url.data.map Char.toLower) ||
    "https://".data.isPrefixOf (url.data.map Char.toLower)

/-- The scheme-prefixing normalisation at the top of `analyzeWebsite`:
`if (!/^(https?:\/\/)/i.test(url)) url = 'https://' + url`. -/
def ensureScheme (url : String) : String :=
  if hasHttpScheme url then url else "https://" ++ url

/-- Performance timing strings as produced by the in-page evaluation. -/
structure Performance where
  firstContentfulPaint : String
  domLoadTime : String
  pageLoadTime : String
deriving DecidableEq

/-- The parse result of whatever markup an acquisition obtained: the raw
cheerio extractions that both acquisition strategies read.  Link counts are
carried as already-counted numbers (the counting helper is not itself under
any claim). -/
structure Page where
  finalUrl : String
  titleText : String
  metaDescriptionAttr : Option String
  h1Text : String
  h2Count : Nat
  h3Count : Nat
  bodyText : String
  internalLinks : Nat
  externalLinks : Nat
  images : Nat
  imagesWithAlt : Nat
  schemaScriptCount : Nat
  canonicalAttr : Option String
  metaRobotsAttr : Option String
  perf : Performance
  screenshotB64 : String
deriving DecidableEq

/-- A site snapshot (`analyzedData` object).  JS objects have no fixed shape,
so fields that only one acquisition strategy writes are `Option`s: `none`
models an absent key (`undefined`), and for `canonicalUrl`/`metaRobots` the
inner `Option` models a present-but-`null` value. -/
structure AnalyzedData where
  url : String
  title : String
  metaDescription : String
  h1 : String
  h2Count : Nat
  h3Count : Option Nat
  wordCount : Nat
  internalLinks : Nat
  externalLinks : Nat
  images : Option Nat
  imagesWithAlt : Option Nat
  schemaMarkup : Option Bool
  canonicalUrl : Option (Option String)
  metaRobots : Option (Option String)
  performance : Option Performance
  technologyStack : List String
  analysisMethod : String
  screenshot : Option String
deriving DecidableEq

/-- The snapshot assembled by `analyzWithPuppeteer` (v3.0): every structured
field is written, performance timings and a screenshot are captured, and the
method tag is `PUPPETEER_SUCCESS`. -/
def puppeteerSnapshot (p : Page) (tech : List String) : AnalyzedData :=
  { url := p.finalUrl
  , title := textOrDefault p.titleText "No title found"
  , metaDescription := attrOrDefault p.metaDescriptionAttr "No meta description found"
  , h1 := textOrDefault p.h1Text "No H1 found"
  , h2Count := p.h2Count
  , h3Count := some p.h3Count
  , wordCount := estimateWordCount p.bodyText
  , internalLinks := p.internalLinks
  , externalLinks := p.externalLinks
  , images := some p.images
  , imagesWithAlt := some p.imagesWithAlt
  , schemaMarkup := some (p.schemaScriptCount != 0)
  , canonicalUrl := some p.canonicalAttr
  , metaRobots := some p.metaRobotsAttr
  , performance := some p.perf
  , technologyStack := tech
  , analysisMethod := "PUPPETEER_SUCCESS"
  , screenshot := some p.screenshotB64 }

/-- The snapshot assembled by `analyzeWithFallback` (v3.0): only the core
fields are written (`url` is the request URL, not a post-redirect one);
`h3Count`, image/alt counts, the structured-data flag, canonical URL, robots
directive and the whole `performance` object are absent, `screenshot` is
`null`, and the method tag is `FALLBACK_SUCCESS`. -/
def fallbackSnapshot (url : String) (p : Page) (tech : List String) : AnalyzedData :=
  { url := url
  , title := textOrDefault p.titleText "No title found"
  , metaDescription := attrOrDefault p.metaDescriptionAttr "No meta description found"
  , h1 := textOrDefault p.h1Text "No H1 found"
  , h2Count := p.h2Count
  , h3Count := none
  , wordCount := estimateWordCount p.bodyText
  , internalLinks := p.internalLinks
  , externalLinks := p.externalLinks
  , images := none
  , imagesWithAlt := none
  , schemaMarkup := none
  , canonicalUrl := none
  , metaRobots := none
  , performance := none
  , technologyStack := tech
  , analysisMethod := "FALLBACK_SUCCESS"
  , screenshot := none }

/-- How the environment behaves for one (scheme-normalised) URL: the primary
browser acquisition succeeds, or it fails and the direct-fetch fallback
succeeds, or both fail.  A URL the `new URL` constructor rejects is one of
the `bothFail` cases (its thrown `Invalid URL format` error is caught by the
same per-site handler). -/
inductive AcqOutcome where
  | primaryOk (p : Page) (tech : List String)
  | fallbackOk (p : Page) (tech : List String)
  | bothFail (msg : String)
deriving DecidableEq

/-- `analyzeWebsite` (v3.0): normalise the scheme, then try Puppeteer and
fall back to the HTTP fetch; both strategies failing surfaces as an error. -/
def analyzeWebsite (acq : String → AcqOutcome) (url : String) : Except String AnalyzedData :=
  let nu := ensureScheme url
  match acq nu with
  | .primaryOk p tech => .ok (puppeteerSnapshot p tech)
  | .fallbackOk p tech => .ok (fallbackSnapshot nu p tech)
  | .bothFail m => .error m

/-- The operative (v3.0) `deduplicateByDomain`, worker on an explicit `seen`
set: `urls.filter` keeping an entry verbatim iff `getDomain(url)` yields a
domain not seen before. -/
def dedupAux (g : String → Option String) (seen : List String) : List String → List String
  | [] => []
  | url :: rest =>
    match g url with
    | none => dedupAux g seen rest
    | some d => if d ∈ seen then dedupAux g seen rest
                else url :: dedupAux g (d :: seen) rest

/-- The operative (v3.0) `deduplicateByDomain`: keeps the first URL per
registrable root domain, entries verbatim, entries without an extractable
domain dropped. -/
def deduplicateByDomain (g : String → Option String) (urls : List String) : List String :=
  dedupAux g [] urls

/-- The host part of a URL or bare hostname: strip a scheme prefix if
present, keep everything up to the first `/`. -/
def hostOf (url : String) : String :=
  let rest := if "https://".data.isPrefixOf url.data then url.data.drop 8
              else if "http://".data.isPrefixOf url.data then url.data.drop 7
              else url.data
  ⟨rest.takeWhile (fun c => c ≠ '/')⟩

/-- `String.splitOn` for a single separator character, structurally:
`splitOnChar '.' "a.b" = ["a", "b"]`, and the empty input yields `[""]`. -/
def splitOnChar (sep : Char) : List Char → List (List Char)
  | [] => [[]]
  | c :: rest =>
    match splitOnChar sep rest with
    | [] => [[]]
    | h :: t => if c = sep then [] :: h :: t else (c :: h) :: t

/-- Model of the external tldts `getDomain`: accepts a URL or a bare
hostname, returns the registrable domain or null.  The public-suffix list is
simplified to single-label suffixes (the last two dot-labels), which is
accurate for the `.com` hosts used in the concrete examples; an input with
fewer than two labels or an empty label has no registrable domain. -/
def getDomainModel (url : String) : Option String :=
  let labels := splitOnChar '.' (hostOf url).data
  if 2 ≤ labels.length ∧ labels.all (fun l => l ≠ []) then
    match labels.reverse with
    | tld :: sld :: _ => some ⟨sld ++ '.' :: tld⟩
    | _ => none
  else none

/-- `performMultipleDeepScan` step 0: `uniqueCompetitors.slice(0, 5)`. -/
def urlsToProcess (g : String → Option String) (urls : List String) : List String :=
  (deduplicateByDomain g urls).take 5

/-- The settled per-URL acquisition results (`Promise.all` over the wrapped
`analyzeWebsite` calls; each wrapper catches, so every promise fulfils with a
status object, modelled as `Except`). -/
def settledResults (acq : String → AcqOutcome) (g : String → Option String)
    (urls : List String) : List (Except String AnalyzedData) :=
  (urlsToProcess g urls).map (analyzeWebsite acq)

/-- The `successfulAnalyses` list: fulfilled results, submission order
preserved. -/
def successfulAnalyses (acq : String → AcqOutcome) (g : String → Option String)
    (urls : List String) : List AnalyzedData :=
  (settledResults acq g urls).filterMap Except.toOption

/-- One specialist agent's findings. -/
structure SpecialistReport where
  strengths : List String
  weaknesses : List String
deriving DecidableEq

instance {ε α : Type} [DecidableEq ε] [DecidableEq α] : DecidableEq (Except ε α) := fun x y =>
  match x, y with
  | .ok a, .ok b =>
    if h : a = b then isTrue (by rw [h]) else isFalse (fun hc => h (Except.ok.inj hc))
  | .error e, .error f =>
    if h : e = f then isTrue (by rw [h]) else isFalse (fun hc => h (Except.error.inj hc))
  | .ok _, .error _ => isFalse (fun hc => Except.noConfusion hc)
  | .error _, .ok _ => isFalse (fun hc => Except.noConfusion hc)

/-- The three analysis-capability calls for one site; each either parses into
a report or throws (API error or malformed JSON). -/
structure AgentOutcome where
  tech : Except String SpecialistReport
  content : Except String SpecialistReport
  visual : Except String SpecialistReport
deriving DecidableEq

/-- The `raw_data_summary` of one competitor entry. -/
structure RawSummary where
  wordCount : Nat
  performance : Option Performance
  techStack : List String
deriving DecidableEq

/-- One element of `allAgentReports`: either a full entry with the three
specialist reports, or (when any launched agent threw) an explicit
`url`/`error` record without reports. -/
structure CompetitorEntry where
  url : String
  raw_data_summary : Option RawSummary
  specialist_reports : Option (SpecialistReport × SpecialistReport × SpecialistReport)
  error : Option String
deriving DecidableEq

/-- The catch branch of the per-site agent pipeline. -/
def agentFailureEntry (u m : String) : CompetitorEntry :=
  { url := u, raw_data_summary := none, specialist_reports := none
  , error := some ("Agent analysis failed: " ++ m) }

/-- The per-site agent pipeline of `performMultipleDeepScan` (v3.0): tech and
content agents run (their `Promise.all` rejects with the first failure,
modelled tech-first), then the visual agent runs only if a screenshot exists
— a missing screenshot yields the explicit placeholder report.  Any agent
throw is caught at the site level and replaces the whole entry with an
explicit error record. -/
def runSiteAgents (d : AnalyzedData) (o : AgentOutcome) : CompetitorEntry :=
  match o.tech with
  | .error m => agentFailureEntry d.url m
  | .ok tr =>
    match o.content with
    | .error m => agentFailureEntry d.url m
    | .ok cr =>
      match d.screenshot with
      | none =>
        { url := d.url
        , raw_data_summary := some ⟨d.wordCount, d.performance, d.technologyStack⟩
        , specialist_reports := some (tr, cr, ⟨[], ["Screenshot not available"]⟩)
        , error := none }
      | some _ =>
        match o.visual with
        | .error m => agentFailureEntry d.url m
        | .ok vr =>
          { url := d.url
          , raw_data_summary := some ⟨d.wordCount, d.performance, d.technologyStack⟩
          , specialist_reports := some (tr, cr, vr)
          , error := none }

/-- JS `Math.round (a / b)` for nonnegative operands:
`floor (a / b + 1 / 2) = (2 a + b) / (2 b)` in integer division. -/
def natRound (a b : Nat) : Nat := (2 * a + b) / (2 * b)

/-- The values passed to the progress callback during the acquisition phase:
after the k-th site finishes (success or failure), the shared counter is k
and `Math.round((k / total) * 50)` is reported. -/
def acquisitionTrace (total : Nat) : List Nat :=
  (List.range total).map (fun k => natRound (50 * (k + 1)) total)

/-- The values passed during the specialist-agent phase:
`Math.round(50 + (j / successful) * 50)` after the j-th site's agents
finish. -/
def analysisTrace (successful : Nat) : List Nat :=
  (List.range successful).map (fun j => 50 + natRound (50 * (j + 1)) successful)

/-- The full sequence of values reported to the progress callback by one run
of `performMultipleDeepScan`: the acquisition phase (one report per attempted
site), then — unless every acquisition failed — one report per successful
site's agent run, then the final `progressCallback(100)` (issued both on the
success path and in the catch branch). -/
def progressTrace (acq : String → AcqOutcome) (g : String → Option String)
    (urls : List String) : List Nat :=
  acquisitionTrace (urlsToProcess g urls).length ++
    (match successfulAnalyses acq g urls with
     | [] => [100]
     | l => analysisTrace l.length ++ [100])

/-- `try { progressCallback(percent) } catch (_) {}`: a throwing callback
leaves the observable callback state unchanged and nothing propagates. -/
def safeCall {σ : Type} (cb : Nat → σ → Except String σ) (p : Nat) (s : σ) : σ :=
  match cb p s with
  | .ok s2 => s2
  | .error _ => s

/-- The terminal artifact of a successful job (`data` of the success
payload); the wall-clock timestamp is not modelled. -/
structure FinalData where
  brandName : String
  competitorsAnalyzed : List (String × String)
  analysis : String
  detailedAgentReports : List CompetitorEntry
deriving DecidableEq

/-- The value `performMultipleDeepScan` resolves with: a success payload or —
because the whole body sits in a catch-all — a returned failure payload
(never a rejection). -/
inductive ScanResult where
  | ok (data : FinalData)
  | fail (error : String)
deriving DecidableEq

/-- The error message thrown (and then caught) when zero sites could be
acquired. -/
def totalFailureMsg : String :=
  "No competitor data could be analyzed. All attempts failed."

/-- One run of the pipeline: its resolved value, the progress values it
reported, and the final state of the (possibly throwing) callback. -/
structure PipelineRun (σ : Type) where
  result : ScanResult
  trace : List Nat
  cbState : σ
deriving DecidableEq

/-- The operative (v3.0) `performMultipleDeepScan`, parameterised over the
external oracles: `g` (tldts `getDomain`), `acq` (per-URL acquisition
behaviour), `agents` (per-site analysis-capability behaviour), `synth` (the
Chief-Strategist call).  Dedup and cap, fan-out acquisition, the
total-failure throw caught by the outer catch, the per-site agent fan-out,
synthesis, and the final report assembly. -/
def performMultipleDeepScan {σ : Type} (g : String → Option String)
    (acq : String → AcqOutcome) (agents : AnalyzedData → AgentOutcome)
    (synth : Except String String) (brandName _category : String)
    (urls : List String) (cb : Nat → σ → Except String σ) (s0 : σ) : PipelineRun σ :=
  let tr := progressTrace acq g urls
  let finalCb := tr.foldl (fun st p => safeCall cb p st) s0
  match successfulAnalyses acq g urls with
  | [] => { result := .fail totalFailureMsg, trace := tr, cbState := finalCb }
  | d :: ds =>
    match synth with
    | .error m => { result := .fail m, trace := tr, cbState := finalCb }
    | .ok analysis =>
      { result := .ok
          { brandName := brandName
          , competitorsAnalyzed := (d :: ds).map (fun a => (a.url, a.title))
          , analysis := analysis
          , detailedAgentReports := (d :: ds).map (fun a => runSiteAgents a (agents a)) }
      , trace := tr, cbState := finalCb }

/-- Job lifecycle states, as the queue reports them. -/
inductive JobState where
  | queued
  | active
  | completed
  | failed
deriving DecidableEq

/-- The body of a submission and the `job.data` stored with a queued job. -/
structure JobData where
  brandName : String
  category : Option String
  competitorUrls : List String
deriving DecidableEq

/-- One job held by the queue. -/
structure QueueJob where
  id : String
  data : JobData
  state : JobState
deriving DecidableEq

/-- The queue's visible contents. -/
structure QueueState where
  jobs : List QueueJob
deriving DecidableEq

/-- Modelled from the spec: the BullMQ `Queue.add` called with an explicit
`jobId` (the queue library itself is an external dependency, only its caller
is in the repository).  Per the spec's idempotency contract, if a job with
that key already exists the queue must not create a second job and the
submission resolves to the existing job; otherwise a fresh job is enqueued
in the `queued` state under that key. -/
def queueAdd (q : QueueState) (jobId : String) (d : JobData) : QueueState × String :=
  match q.jobs.find? (fun j => j.id == jobId) with
  | some j => (q, j.id)
  | none => ({ jobs := q.jobs ++ [{ id := jobId, data := d, state := .queued }] }, jobId)

/-- JS `category || 'General'`: `undefined` and the empty string both default. -/
def categoryOrDefault (c : Option String) : String :=
  match c with
  | none => "General"
  | some s => if s = "" then "General" else s

/-- `JSON.stringify` of the normalized fingerprint payload
(string escaping is not modelled; only function-ness of the encoding is used). -/
def jsonStringify (b c : String) (urls : List String) : String :=
  "\x7b\"brandName\":\"" ++ b ++ "\",\"category\":\"" ++ c ++
    "\",\"competitorUrls\":[" ++
    String.intercalate "," (urls.map (fun u => "\"" ++ u ++ "\"")) ++ "]\x7d"

/-- The deterministic job fingerprint computed by the `/deep-scan` endpoint:
sha256 (abstracted as `hash`) of the JSON of brand, defaulted category and
the lexically sorted copy of the URL list, truncated to 16 characters. -/
def fingerprint (hash : String → String) (b : String) (c : Option String)
    (urls : List String) : String :=
  (hash (jsonStringify b (categoryOrDefault c) (List.insertionSort (· ≤ ·) urls))).take 16

/-- The `/deep-scan` endpoint: validation (`!brandName ||
!Array.isArray(competitorUrls) || competitorUrls.length === 0` rejects), then
`analysisQueue.add('deepScan', data, \x7b jobId: fingerprint \x7d)`; returns the
updated queue and the `jobId` of the resolved job. -/
def deepScanSubmit (hash : String → String) (q : QueueState) (body : JobData) :
    Except String (QueueState × String) :=
  if body.brandName = "" ∨ body.competitorUrls = [] then
    .error "brandName and competitorUrls are required."
  else
    .ok (queueAdd q (fingerprint hash body.brandName body.category body.competitorUrls) body)

/-- The document the worker's `completed` handler writes to the
`deepScans/jobId` Firestore document: the job inputs spread together with the
analysis data (`result.data` on success, the failure wrapper itself
otherwise) and the `success` flag. -/
structure SavedDoc where
  jobData : JobData
  success : Bool
  error : Option String
  data : Option FinalData
deriving DecidableEq

/-- `worker.on('completed')` (operative revision): `analysisData =
result.success && result.data ? result.data : result`, then the document is
written unconditionally — also for `success: false` payloads. -/
def workerCompletedHandler (jd : JobData) (result : ScanResult) : SavedDoc :=
  match result with
  | .ok d => { jobData := jd, success := true, error := none, data := some d }
  | .fail e => { jobData := jd, success := false, error := some e, data := none }

/-- What one claimed job ends as: the queue-visible terminal state, the
result-store write (if any), and the processor's resolved value. -/
structure JobOutcome where
  state : JobState
  savedDoc : Option SavedDoc
  result : ScanResult
deriving DecidableEq

/-- JS default parameter `category = 'General'`: only `undefined` defaults
(unlike `category || 'General'`, the empty string is kept). -/
def jsDefault (o : Option String) (dflt : String) : String :=
  match o with
  | none => dflt
  | some s => s

/-- The worker of `src/jobs/worker.js` (operative revision) processing one
claimed job: it awaits `performMultipleDeepScan(competitorUrls, brandName,
category)` — with no progress callback, so the pipeline's default no-op is
used — and returns the value.  Because the pipeline catches all its own
errors and resolves with a payload, the processor never throws, the queue
marks the job `completed`, and the `completed` handler writes the document. -/
def runJob (g : String → Option String) (acq : String → AcqOutcome)
    (agents : AnalyzedData → AgentOutcome) (synth : Except String String)
    (jd : JobData) : JobOutcome :=
  let run := performMultipleDeepScan g acq agents synth jd.brandName
    (jsDefault jd.category "General") jd.competitorUrls
    (fun (_ : Nat) (s : Unit) => Except.ok s) ()
  { state := .completed
  , savedDoc := some (workerCompletedHandler jd run.result)
  , result := run.result }

theorem natRound_mono {a b : Nat} (c : Nat) (h : a ≤ b) : natRound a c ≤ natRound b c :=
  Nat.div_le_div_right (by omega)

theorem natRound_le_fifty {k t : Nat} (h : k ≤ t) : natRound (50 * k) t ≤ 50 := by
  unfold natRound
  rcases Nat.eq_zero_or_pos t with ht | ht
  · subst ht; simp
  · have h2 : 0 < 2 * t := by omega
    have hlt : (2 * (50 * k) + t) / (2 * t) < 51 := by
      rw [Nat.div_lt_iff_lt_mul h2]; omega
    omega

theorem chain'_le_map_range {f : Nat → Nat} (hf : ∀ i, f i ≤ f (i + 1)) (t : Nat) :
    List.Chain' (· ≤ ·) ((List.range t).map f) := by
  rw [List.chain'_iff_get]
  intro i hi
  simp only [List.get_eq_getElem, List.getElem_map, List.getElem_range]
  exact hf i

theorem chain'_acquisitionTrace (t : Nat) : List.Chain' (· ≤ ·) (acquisitionTrace t) :=
  chain'_le_map_range (fun i => natRound_mono t (by omega)) t

theorem chain'_analysisTrace (s : Nat) : List.Chain' (· ≤ ·) (analysisTrace s) :=
  chain'_le_map_range (fun i => by
    have := natRound_mono (a := 50 * (i + 1)) (b := 50 * (i + 1 + 1)) s (by omega)
    omega) s

theorem mem_acquisitionTrace_le {t x : Nat} (hx : x ∈ acquisitionTrace t) : x ≤ 50 := by
  unfold acquisitionTrace at hx
  obtain ⟨k, hk, rfl⟩ := List.mem_map.1 hx
  exact natRound_le_fifty (by have := List.mem_range.1 hk; omega)

theorem mem_analysisTrace_bounds {s x : Nat} (hx : x ∈ analysisTrace s) :
    50 ≤ x ∧ x ≤ 100 := by
  unfold analysisTrace at hx
  obtain ⟨j, hj, rfl⟩ := List.mem_map.1 hx
  have := natRound_le_fifty (k := j + 1) (t := s) (by have := List.mem_range.1 hj; omega)
  omega

theorem chain'_progressTrace (acq : String → AcqOutcome) (g : String → Option String)
    (urls : List String) : List.Chain' (· ≤ ·) (progressTrace acq g urls) := by
  unfold progressTrace
  cases hs : successfulAnalyses acq g urls with
  | nil =>
    refine (chain'_acquisitionTrace _).append (List.chain'_singleton 100) ?_
    intro x hx y hy
    have hx' := mem_acquisitionTrace_le (List.mem_of_mem_getLast? hx)
    simp only [List.head?_cons, Option.mem_def, Option.some.injEq] at hy
    omega
  | cons d ds =>
    refine (chain'_acquisitionTrace _).append
      ((chain'_analysisTrace _).append (List.chain'_singleton 100) ?_) ?_
    · intro x hx y hy
      have hx' := (mem_analysisTrace_bounds (List.mem_of_mem_getLast? hx)).2
      simp only [List.head?_cons, Option.mem_def, Option.some.injEq] at hy
      omega
    · intro x hx y hy
      have hx' := mem_acquisitionTrace_le (List.mem_of_mem_getLast? hx)
      rcases List.mem_append.1 (List.mem_of_mem_head? hy) with hana | h100
      · have := (mem_analysisTrace_bounds hana).1; omega
      · simp only [List.mem_singleton] at h100; omega

theorem progressTrace_getLast (acq : String → AcqOutcome) (g : String → Option String)
    (urls : List String) : (progressTrace acq g urls).getLast? = some 100 := by
  unfold progressTrace
  cases successfulAnalyses acq g urls with
  | nil => exact List.getLast?_concat _
  | cons d ds =>
    rw [← List.append_assoc]
    exact List.getLast?_concat _

/-- Claim C4: for any execution of one job the reported progress sequence is
the one computed by `progressTrace`; it is non-decreasing and ends at 100;
every acquisition-phase report (one per attempted site, the k-th being the
rounded cumulative sum of k increments of 50/totalSites) lies in 0–50; and
every analysis-phase report (one per successful site's completed specialist
stage, stepping by the rounded cumulative increments of 50/successfulSites)
lies in 50–100.  Progress is an integer, so the per-event increment 50/total
is realised as the rounded cumulative value `natRound (50 * k) total`. -/
theorem c4_progress_monotonic {σ : Type} (g : String → Option String)
    (acq : String → AcqOutcome) (agents : AnalyzedData → AgentOutcome)
    (synth : Except String String) (b c : String) (urls : List String)
    (cb : Nat → σ → Except String σ) (s0 : σ) :
    (performMultipleDeepScan g acq agents synth b c urls cb s0).trace
      = progressTrace acq g urls ∧
    List.Chain' (· ≤ ·) (progressTrace acq g urls) ∧
    (progressTrace acq g urls).getLast? = some 100 ∧
    (acquisitionTrace (urlsToProcess g urls).length).all
      (fun x => decide (x ≤ 50)) = true ∧
    (analysisTrace (successfulAnalyses acq g urls).length).all
      (fun x => decide (50 ≤ x) && decide (x ≤ 100)) = true := by
  refine ⟨?_, chain'_progressTrace acq g urls, progressTrace_getLast acq g urls, ?_, ?_⟩
  · rcases hs : successfulAnalyses acq g urls with _ | ⟨d, ds⟩ <;>
      rcases synth with m | a <;> simp [performMultipleDeepScan, hs]
  · rw [List.all_eq_true]
    intro x hx
    simpa using mem_acquisitionTrace_le hx
  · rw [List.all_eq_true]
    intro x hx
    have h := mem_analysisTrace_bounds hx
    simp [h.1, h.2]

/-- Claim C10: every invocation of the progress callback is wrapped in a
swallowing try/catch (`safeCall`), so neither the resolved payload nor the
sequence of reported progress values of `performMultipleDeepScan` depends on
the callback or its state — in particular a throwing callback yields the
same result as one that never throws. -/
theorem c10_callback_exception_safety {σ₁ σ₂ : Type} (g : String → Option String)
    (acq : String → AcqOutcome) (agents : AnalyzedData → AgentOutcome)
    (synth : Except String String) (b c : String) (urls : List String)
    (cb₁ : Nat → σ₁ → Except String σ₁) (s₁ : σ₁)
    (cb₂ : Nat → σ₂ → Except String σ₂) (s₂ : σ₂) :
    (performMultipleDeepScan g acq agents synth b c urls cb₁ s₁).result
      = (performMultipleDeepScan g acq agents synth b c urls cb₂ s₂).result ∧
    (performMultipleDeepScan g acq agents synth b c urls cb₁ s₁).trace
      = (performMultipleDeepScan g acq agents synth b c urls cb₂ s₂).trace := by
  rcases hs : successfulAnalyses acq g urls with _ | ⟨d, ds⟩ <;>
    rcases synth with m | a <;> simp [performMultipleDeepScan, hs]

/-- Claim C6: the URL list actually analysed is the first five entries of the
deduplicated list — never more than 5, all of the deduplicated list when it
is shorter — and eight distinct-domain URLs yield exactly the first five. -/
theorem c6_cap_enforcement (g : String → Option String) (urls : List String) :
    urlsToProcess g urls = (deduplicateByDomain g urls).take 5 ∧
    (urlsToProcess g urls).length ≤ 5 ∧
    (urlsToProcess g urls).length = min 5 (deduplicateByDomain g urls).length ∧
    urlsToProcess getDomainModel
      ["https://a.com", "https://b.com", "https://c.com", "https://d.com",
       "https://e.com", "https://f.com", "https://g.com", "https://h.com"]
      = ["https://a.com", "https://b.com", "https://c.com", "https://d.com",
         "https://e.com"] := by
  refine ⟨rfl, ?_, ?_, by decide⟩
  · exact List.length_take_le 5 (deduplicateByDomain g urls)
  · exact List.length_take 5 (deduplicateByDomain g urls)

/-- Concrete performance timings used by the example pages. -/
def perf0 : Performance :=
  { firstContentfulPaint := "100 ms", domLoadTime := "200 ms", pageLoadTime := "300 ms" }

/-- A concrete parsed page used by the example environments. -/
def page0 : Page :=
  { finalUrl := "https://a.com/"
  , titleText := "Acme Rival"
  , metaDescriptionAttr := some "desc"
  , h1Text := "Welcome"
  , h2Count := 2
  , h3Count := 3
  , bodyText := "hello world"
  , internalLinks := 4
  , externalLinks := 1
  , images := 5
  , imagesWithAlt := 2
  , schemaScriptCount := 1
  , canonicalAttr := some "https://a.com/"
  , metaRobotsAttr := none
  , perf := perf0
  , screenshotB64 := "imgdata" }

/-- An environment in which every site's primary and fallback acquisition
fail. -/
def acqAllFail : String → AcqOutcome := fun _ => .bothFail "network error"

/-- An environment in which only `https://a.com` is acquired (by the primary
strategy); every other site fails both strategies. -/
def acq2 : String → AcqOutcome := fun u =>
  if u = "https://a.com" then .primaryOk page0 ["React"] else .bothFail "down"

/-- Agent behaviour in which every analysis-capability call throws. -/
def agents0 : AnalyzedData → AgentOutcome := fun _ => ⟨.error "x", .error "x", .error "x"⟩

/-- A concrete submission processed by the example jobs. -/
def jd0 : JobData :=
  { brandName := "Acme", category := none, competitorUrls := ["a.com", "b.com"] }

/-- Counterexample to claim C1 as stated: in a run where every one of the
attempted sites fails acquisition, the job does not end in the `failed`
state and a result document is written — the worker returns the pipeline's
`success: false` payload normally, BullMQ marks the job `completed`, and the
completed-handler writes the document. -/
theorem c1_counterexample :
    (runJob getDomainModel acqAllFail agents0 (Except.ok "report") jd0).state
      = JobState.completed ∧
    (runJob getDomainModel acqAllFail agents0 (Except.ok "report") jd0).state
      ≠ JobState.failed ∧
    (runJob getDomainModel acqAllFail agents0 (Except.ok "report") jd0).savedDoc
      ≠ none := by decide

/-- Claim C1 (amended): when zero of the N attempted sites could be acquired,
`performMultipleDeepScan` resolves with the failure payload carrying the
`TotalFailureError`-class message and no `FinalReport` is produced — but the
worker returns that payload normally, so the job ends in the `completed`
state with the payload, and the completed-handler writes a result document
recording `success: false` and the error. -/
theorem c1_amended_total_failure (g : String → Option String)
    (acq : String → AcqOutcome) (agents : AnalyzedData → AgentOutcome)
    (synth : Except String String) (jd : JobData)
    (hz : successfulAnalyses acq g jd.competitorUrls = []) :
    (runJob g acq agents synth jd).result = ScanResult.fail totalFailureMsg ∧
    (runJob g acq agents synth jd).state = JobState.completed ∧
    (runJob g acq agents synth jd).savedDoc =
      some { jobData := jd, success := false, error := some totalFailureMsg
           , data := none } := by
  refine ⟨?_, rfl, ?_⟩ <;>
    simp [runJob, performMultipleDeepScan, hz, workerCompletedHandler]

theorem c1_amended_total_failure_witness :
    successfulAnalyses acqAllFail getDomainModel jd0.competitorUrls = [] ∧
    ((runJob getDomainModel acqAllFail agents0 (Except.error "no synth") jd0).result
        = ScanResult.fail totalFailureMsg ∧
      (runJob getDomainModel acqAllFail agents0 (Except.error "no synth") jd0).state
        = JobState.completed ∧
      (runJob getDomainModel acqAllFail agents0 (Except.error "no synth") jd0).savedDoc
        = some { jobData := jd0, success := false, error := some totalFailureMsg
               , data := none }) :=
  ⟨by decide,
    c1_amended_total_failure getDomainModel acqAllFail agents0 (Except.error "no synth") jd0
      (by decide)⟩

/-- Claim C9: when at least one of the N attempted sites is acquired and the
synthesis call succeeds, the job ends `completed` with a final report whose
`competitorsAnalyzed` lists exactly the successfully acquired sites (their
snapshot URL and title), in order — possibly fewer than N. -/
theorem c9_partial_success (g : String → Option String) (acq : String → AcqOutcome)
    (agents : AnalyzedData → AgentOutcome) (a : String) (jd : JobData)
    (hs : successfulAnalyses acq g jd.competitorUrls ≠ []) :
    (runJob g acq agents (Except.ok a) jd).state = JobState.completed ∧
    ∃ fd, (runJob g acq agents (Except.ok a) jd).result = ScanResult.ok fd ∧
      (runJob g acq agents (Except.ok a) jd).savedDoc =
        some { jobData := jd, success := true, error := none, data := some fd } ∧
      fd.brandName = jd.brandName ∧
      fd.analysis = a ∧
      fd.competitorsAnalyzed =
        (successfulAnalyses acq g jd.competitorUrls).map (fun d => (d.url, d.title)) := by
  rcases hsl : successfulAnalyses acq g jd.competitorUrls with _ | ⟨d, ds⟩
  · exact absurd hsl hs
  · refine ⟨rfl, ?_⟩
    refine ⟨{ brandName := jd.brandName
            , competitorsAnalyzed := (d :: ds).map (fun x => (x.url, x.title))
            , analysis := a
            , detailedAgentReports := (d :: ds).map (fun x => runSiteAgents x (agents x)) },
      ?_, ?_, rfl, rfl, ?_⟩ <;>
      simp [runJob, performMultipleDeepScan, hsl, workerCompletedHandler]

theorem c9_partial_success_witness :
    successfulAnalyses acq2 getDomainModel jd0.competitorUrls ≠ [] ∧
    (successfulAnalyses acq2 getDomainModel jd0.competitorUrls).length <
      (urlsToProcess getDomainModel jd0.competitorUrls).length ∧
    ((runJob getDomainModel acq2 agents0 (Except.ok "report") jd0).state
        = JobState.completed ∧
      ∃ fd, (runJob getDomainModel acq2 agents0 (Except.ok "report") jd0).result
          = ScanResult.ok fd ∧
        (runJob getDomainModel acq2 agents0 (Except.ok "report") jd0).savedDoc =
          some { jobData := jd0, success := true, error := none, data := some fd } ∧
        fd.brandName = jd0.brandName ∧
        fd.analysis = "report" ∧
        fd.competitorsAnalyzed =
          (successfulAnalyses acq2 getDomainModel jd0.competitorUrls).map
            (fun d => (d.url, d.title))) :=
  ⟨by decide, by decide,
    c9_partial_success getDomainModel acq2 agents0 "report" jd0 (by decide)⟩

/-- A concrete specialist report used by the examples. -/
def r0 : SpecialistReport := { strengths := ["clear h1"], weaknesses := [] }

/-- Agent behaviour for one site in which the technical agent throws while the
content and visual agents would succeed. -/
def o0 : AgentOutcome := { tech := .error "boom", content := .ok r0, visual := .ok r0 }

/-- Counterexample to claim C7 as stated: one analyzer's failure does abort
the site's sibling analyzers — with the technical agent throwing and the
content agent succeeding, the site's entry carries no specialist reports at
all, so the content agent's successful report is not produced. -/
theorem c7_counterexample :
    ¬ (∀ (d : AnalyzedData) (o : AgentOutcome) (cr : SpecialistReport),
        o.content = Except.ok cr →
          ∃ tr vr, (runSiteAgents d o).specialist_reports = some (tr, cr, vr)) := by
  intro h
  obtain ⟨tr, vr, heq⟩ := h (puppeteerSnapshot page0 ["React"]) o0 r0 rfl
  simp [runSiteAgents, o0, agentFailureEntry] at heq

/-- Claim C7 (amended): a malformed or failed response from any launched
analyzer (technical, content, or visual when a screenshot exists) is caught
at the site level: the site's entry becomes an explicit failure record —
`error` set to the agent message and no `specialist_reports`, distinguishable
from empty findings — while sibling sites' pipelines and the synthesis stage
proceed; the successful sibling analyzers' reports for the affected site are
discarded rather than retained.  (Only a missing screenshot is recorded
per-analyzer, as the explicit visual placeholder.) -/
theorem c7_amended_agent_failure (d : AnalyzedData) (o : AgentOutcome)
    (m : String) (tr cr : SpecialistReport) (sc : String)
    (hfail : o.tech = Except.error m ∨
      (o.tech = Except.ok tr ∧ o.content = Except.error m) ∨
      (o.tech = Except.ok tr ∧ o.content = Except.ok cr ∧ d.screenshot = some sc ∧
        o.visual = Except.error m)) :
    runSiteAgents d o = agentFailureEntry d.url m ∧
    (runSiteAgents d o).specialist_reports = none ∧
    (runSiteAgents d o).error = some ("Agent analysis failed: " ++ m) ∧
    (runSiteAgents d o).error ≠ none := by
  have he : runSiteAgents d o = agentFailureEntry d.url m := by
    rcases hfail with h1 | ⟨h1, h2⟩ | ⟨h1, h2, h3, h4⟩
    · simp [runSiteAgents, h1]
    · simp [runSiteAgents, h1, h2]
    · simp [runSiteAgents, h1, h2, h3, h4]
  refine ⟨he, ?_, ?_, ?_⟩ <;> simp [he, agentFailureEntry]

theorem c7_amended_agent_failure_witness :
    (o0.tech = Except.error "boom" ∨
      (o0.tech = Except.ok r0 ∧ o0.content = Except.error "boom") ∨
      (o0.tech = Except.ok r0 ∧ o0.content = Except.ok r0 ∧
        (puppeteerSnapshot page0 ["React"]).screenshot = some "imgdata" ∧
        o0.visual = Except.error "boom")) ∧
    (runSiteAgents (puppeteerSnapshot page0 ["React"]) o0
        = agentFailureEntry (puppeteerSnapshot page0 ["React"]).url "boom" ∧
      (runSiteAgents (puppeteerSnapshot page0 ["React"]) o0).specialist_reports = none ∧
      (runSiteAgents (puppeteerSnapshot page0 ["React"]) o0).error
        = some ("Agent analysis failed: " ++ "boom") ∧
      (runSiteAgents (puppeteerSnapshot page0 ["React"]) o0).error ≠ none) :=
  ⟨Or.inl (by decide),
    c7_amended_agent_failure (puppeteerSnapshot page0 ["React"]) o0 "boom" r0 r0 "imgdata"
      (Or.inl (by decide))⟩

/-- Counterexample to claim C8 as stated: a fallback-produced snapshot does
not carry performance fields marked unavailable, nor image/alt counts, nor a
structured-data flag — in the operative revision these keys are absent from
the fallback snapshot altogether. -/
theorem c8_counterexample :
    ¬ (∃ perf, (fallbackSnapshot "https://x.com" page0 []).performance = some perf) ∧
    ¬ (∃ n, (fallbackSnapshot "https://x.com" page0 []).images = some n) ∧
    ¬ (∃ n, (fallbackSnapshot "https://x.com" page0 []).imagesWithAlt = some n) ∧
    ¬ (∃ b, (fallbackSnapshot "https://x.com" page0 []).schemaMarkup = some b) ∧
    (fallbackSnapshot "https://x.com" page0 []).analysisMethod = "FALLBACK_SUCCESS" := by
  refine ⟨?_, ?_, ?_, ?_, rfl⟩ <;> rintro ⟨x, hx⟩ <;> exact Option.noConfusion hx

/-- Claim C8 (amended): a snapshot produced by the fallback after a failed
primary acquisition is tagged `FALLBACK_SUCCESS`, has no screenshot, and
shares the core extracted fields (url — the request URL, title, meta
description, H1, H2 count, word count, link counts, technology stack) with a
primary snapshot of the same markup; but `h3Count`, image and alt counts, the
structured-data flag, canonical URL, robots directive and the whole
`performance` object are absent rather than marked unavailable. -/
theorem c8_amended_fallback_snapshot (url : String) (p : Page) (tech : List String) :
    (fallbackSnapshot url p tech).analysisMethod = "FALLBACK_SUCCESS" ∧
    (fallbackSnapshot url p tech).screenshot = none ∧
    (fallbackSnapshot url p tech).performance = none ∧
    (fallbackSnapshot url p tech).h3Count = none ∧
    (fallbackSnapshot url p tech).images = none ∧
    (fallbackSnapshot url p tech).imagesWithAlt = none ∧
    (fallbackSnapshot url p tech).schemaMarkup = none ∧
    (fallbackSnapshot url p tech).canonicalUrl = none ∧
    (fallbackSnapshot url p tech).metaRobots = none ∧
    (fallbackSnapshot url p tech).url = url ∧
    (fallbackSnapshot url p tech).title = (puppeteerSnapshot p tech).title ∧
    (fallbackSnapshot url p tech).metaDescription
      = (puppeteerSnapshot p tech).metaDescription ∧
    (fallbackSnapshot url p tech).h1 = (puppeteerSnapshot p tech).h1 ∧
    (fallbackSnapshot url p tech).h2Count = (puppeteerSnapshot p tech).h2Count ∧
    (fallbackSnapshot url p tech).wordCount = (puppeteerSnapshot p tech).wordCount ∧
    (fallbackSnapshot url p tech).internalLinks
      = (puppeteerSnapshot p tech).internalLinks ∧
    (fallbackSnapshot url p tech).externalLinks
      = (puppeteerSnapshot p tech).externalLinks ∧
    (fallbackSnapshot url p tech).technologyStack
      = (puppeteerSnapshot p tech).technologyStack :=
  ⟨rfl, rfl, rfl, rfl, rfl, rfl, rfl, rfl, rfl, rfl, rfl, rfl, rfl, rfl, rfl, rfl, rfl, rfl⟩

theorem dedupAux_cons_none {g : String → Option String} {url : String} {seen rest : List String}
    (h : g url = none) : dedupAux g seen (url :: rest) = dedupAux g seen rest := by
  simp [dedupAux, h]

theorem dedupAux_cons_mem {g : String → Option String} {url d : String} {seen rest : List String}
    (h : g url = some d) (hd : d ∈ seen) :
    dedupAux g seen (url :: rest) = dedupAux g seen rest := by
  simp [dedupAux, h, hd]

theorem dedupAux_cons_new {g : String → Option String} {url d : String} {seen rest : List String}
    (h : g url = some d) (hd : d ∉ seen) :
    dedupAux g seen (url :: rest) = url :: dedupAux g (d :: seen) rest := by
  simp [dedupAux, h, hd]

theorem dedupAux_sublist (g : String → Option String) (urls : List String) :
    ∀ seen, List.Sublist (dedupAux g seen urls) urls := by
  induction urls with
  | nil => intro seen; simp [dedupAux]
  | cons u rest ih =>
    intro seen
    cases hg : g u with
    | none => rw [dedupAux_cons_none hg]; exact (ih seen).cons u
    | some d =>
      by_cases hd : d ∈ seen
      · rw [dedupAux_cons_mem hg hd]; exact (ih seen).cons u
      · rw [dedupAux_cons_new hg hd]; exact (ih (d :: seen)).cons₂ u

theorem dedupAux_some (g : String → Option String) (urls : List String) :
    ∀ seen, Option.none ∉ (dedupAux g seen urls).map g := by
  induction urls with
  | nil => intro seen; simp [dedupAux]
  | cons u rest ih =>
    intro seen
    cases hg : g u with
    | none => rw [dedupAux_cons_none hg]; exact ih seen
    | some d =>
      by_cases hd : d ∈ seen
      · rw [dedupAux_cons_mem hg hd]; exact ih seen
      · rw [dedupAux_cons_new hg hd]
        simp only [List.map_cons, List.mem_cons]
        rintro (h | h)
        · rw [hg] at h; exact Option.noConfusion h
        · exact ih (d :: seen) h

theorem dedupAux_domains (g : String → Option String) (urls : List String) :
    ∀ seen, ((dedupAux g seen urls).map g).Nodup ∧
      ∀ u ∈ dedupAux g seen urls, ∀ d, g u = some d → d ∉ seen := by
  induction urls with
  | nil => intro seen; refine ⟨by simp [dedupAux], by simp [dedupAux]⟩
  | cons u rest ih =>
    intro seen
    cases hg : g u with
    | none => rw [dedupAux_cons_none hg]; exact ih seen
    | some d =>
      by_cases hd : d ∈ seen
      · rw [dedupAux_cons_mem hg hd]; exact ih seen
      · rw [dedupAux_cons_new hg hd]
        obtain ⟨ihn, ihs⟩ := ih (d :: seen)
        constructor
        · simp only [List.map_cons, List.nodup_cons]
          refine ⟨?_, ihn⟩
          intro hmem
          rw [hg] at hmem
          obtain ⟨v, hv, hgv⟩ := List.mem_map.1 hmem
          exact ihs v hv d hgv (List.mem_cons_self d seen)
        · intro v hv d' hgv
          rcases List.mem_cons.1 hv with rfl | hv'
          · rw [hg] at hgv
            obtain rfl := Option.some.inj hgv
            exact hd
          · intro hmem
            exact ihs v hv' d' hgv (List.mem_cons_of_mem d hmem)

theorem dedupAux_first_seen (g : String → Option String) (urls : List String) :
    ∀ seen dom v, dom ∉ seen →
      urls.find? (fun u => g u == some dom) = some v →
      v ∈ dedupAux g seen urls := by
  induction urls with
  | nil => intro seen dom v _ hfind; simp [List.find?] at hfind
  | cons u rest ih =>
    intro seen dom v hdom hfind
    by_cases hpu : g u = some dom
    · have hp : (fun u => g u == some dom) u = true := by simp [hpu]
      rw [List.find?_cons_of_pos (p := fun u => g u == some dom) rest hp] at hfind
      obtain rfl := Option.some.inj hfind
      rw [dedupAux_cons_new hpu hdom]
      exact List.mem_cons_self _ _
    · have hp : ¬ ((fun u => g u == some dom) u = true) := by
        simp only [beq_iff_eq]
        exact hpu
      rw [List.find?_cons_of_neg (p := fun u => g u == some dom) rest hp] at hfind
      cases hg : g u with
      | none => rw [dedupAux_cons_none hg]; exact ih seen dom v hdom hfind
      | some d =>
        by_cases hd : d ∈ seen
        · rw [dedupAux_cons_mem hg hd]; exact ih seen dom v hdom hfind
        · rw [dedupAux_cons_new hg hd]
          refine List.mem_cons_of_mem u (ih (d :: seen) dom v ?_ hfind)
          intro hmem
          rcases List.mem_cons.1 hmem with rfl | hmem'
          · exact hpu hg
          · exact hdom hmem'

/-- Counterexample to claim C5 as stated: the operative deduplication does
not normalise entries by prefixing `https://` — a scheme-less entry is kept
verbatim, not as its `https://`-prefixed form. -/
theorem c5_counterexample :
    deduplicateByDomain getDomainModel ["a.com"] = ["a.com"] ∧
    deduplicateByDomain getDomainModel ["a.com"] ≠ ["https://a.com"] := by decide

/-- Claim C5 (amended): deduplication keeps entries verbatim (no scheme
normalisation), as a sublist of the input (order preserved); every kept entry
has an extractable registrable root domain, kept domains are pairwise
distinct, and for each domain present in the input the first URL carrying it
is kept; entries without an extractable domain are skipped non-fatally.  The
spec's example still deduplicates to exactly its 2 first-seen entries. -/
theorem c5_amended_dedup (g : String → Option String) (urls : List String)
    (dom v : String)
    (hfind : urls.find? (fun u => g u == some dom) = some v) :
    List.Sublist (deduplicateByDomain g urls) urls ∧
    Option.none ∉ (deduplicateByDomain g urls).map g ∧
    ((deduplicateByDomain g urls).map g).Nodup ∧
    v ∈ deduplicateByDomain g urls ∧
    deduplicateByDomain getDomainModel ["https://a.com", "http://a.com/x", "https://b.com"]
      = ["https://a.com", "https://b.com"] ∧
    deduplicateByDomain getDomainModel
        ["not a url", "https://a.com", "http://a.com/x", "https://b.com"]
      = ["https://a.com", "https://b.com"] :=
  ⟨dedupAux_sublist g urls [], dedupAux_some g urls [], (dedupAux_domains g urls []).1,
    dedupAux_first_seen g urls [] dom v (by simp) hfind, by decide, by decide⟩

theorem c5_amended_dedup_witness :
    (["https://a.com", "http://a.com/x", "https://b.com"].find?
        (fun u => getDomainModel u == some "a.com") = some "https://a.com") ∧
    (List.Sublist
        (deduplicateByDomain getDomainModel ["https://a.com", "http://a.com/x", "https://b.com"])
        ["https://a.com", "http://a.com/x", "https://b.com"] ∧
      Option.none ∉ (deduplicateByDomain getDomainModel
        ["https://a.com", "http://a.com/x", "https://b.com"]).map getDomainModel ∧
      ((deduplicateByDomain getDomainModel
        ["https://a.com", "http://a.com/x", "https://b.com"]).map getDomainModel).Nodup ∧
      "https://a.com" ∈ deduplicateByDomain getDomainModel
        ["https://a.com", "http://a.com/x", "https://b.com"] ∧
      deduplicateByDomain getDomainModel ["https://a.com", "http://a.com/x", "https://b.com"]
        = ["https://a.com", "https://b.com"] ∧
      deduplicateByDomain getDomainModel
          ["not a url", "https://a.com", "http://a.com/x", "https://b.com"]
        = ["https://a.com", "https://b.com"]) :=
  ⟨by decide,
    c5_amended_dedup getDomainModel ["https://a.com", "http://a.com/x", "https://b.com"]
      "a.com" "https://a.com" (by decide)⟩

theorem insertionSort_eq_of_perm {l₁ l₂ : List String} (h : l₁.Perm l₂) :
    List.insertionSort (· ≤ ·) l₁ = List.insertionSort (· ≤ ·) l₂ :=
  List.eq_of_perm_of_sorted
    ((List.perm_insertionSort _ l₁).trans (h.trans (List.perm_insertionSort _ l₂).symm))
    (List.sorted_insertionSort _ l₁) (List.sorted_insertionSort _ l₂)

theorem queueAdd_snd (q : QueueState) (jobId : String) (d : JobData) :
    (queueAdd q jobId d).2 = jobId := by
  rcases hf : q.jobs.find? (fun x => x.id == jobId) with _ | j
  · simp [queueAdd, hf]
  · have hj := List.find?_some hf
    simp only [beq_iff_eq] at hj
    simp [queueAdd, hf, hj]

theorem queueAdd_of_mem {q : QueueState} {jobId : String} {d : JobData} {j : QueueJob}
    (hj : j ∈ q.jobs) (hid : j.id = jobId) : queueAdd q jobId d = (q, jobId) := by
  have hsome : (q.jobs.find? (fun x => x.id == jobId)).isSome := by
    rw [List.find?_isSome]
    exact ⟨j, hj, by simp [hid]⟩
  obtain ⟨j', hj'⟩ := Option.isSome_iff_exists.1 hsome
  have hid' : j'.id = jobId := by
    have := List.find?_some hj'
    simpa using this
  simp [queueAdd, hj', hid']

/-- Claim C2: the jobId returned by the `/deep-scan` endpoint is a pure
function of the brand name, the defaulted category and the sorted URL set —
two valid submissions whose URL lists are permutations of each other (and
whose categories default to the same value) both succeed and receive the
same jobId, whatever the queue contents at either submission. -/
theorem c2_fingerprint_determinism (hash : String → String) (q q' : QueueState)
    (b : String) (c c' : Option String) (urls urls' : List String)
    (hb : b ≠ "") (hu : urls ≠ []) (hc : categoryOrDefault c = categoryOrDefault c')
    (hp : urls'.Perm urls) :
    ∃ st st',
      deepScanSubmit hash q { brandName := b, category := c, competitorUrls := urls }
        = Except.ok st ∧
      deepScanSubmit hash q' { brandName := b, category := c', competitorUrls := urls' }
        = Except.ok st' ∧
      st.2 = st'.2 := by
  have hu' : urls' ≠ [] := by
    intro h
    subst h
    exact hu hp.symm.eq_nil
  have hfp : fingerprint hash b c urls = fingerprint hash b c' urls' := by
    unfold fingerprint
    rw [hc, insertionSort_eq_of_perm hp.symm]
  refine ⟨queueAdd q (fingerprint hash b c urls)
      { brandName := b, category := c, competitorUrls := urls },
    queueAdd q' (fingerprint hash b c' urls')
      { brandName := b, category := c', competitorUrls := urls' }, ?_, ?_, ?_⟩
  · unfold deepScanSubmit
    rw [if_neg (by simp [hb, hu])]
  · unfold deepScanSubmit
    rw [if_neg (by simp [hb, hu'])]
  · rw [queueAdd_snd, queueAdd_snd, hfp]

theorem c2_fingerprint_determinism_witness :
    ("Acme" ≠ "" ∧ (["b.com", "a.com"] : List String) ≠ [] ∧
      categoryOrDefault none = categoryOrDefault (some "") ∧
      (["a.com", "b.com"] : List String).Perm ["b.com", "a.com"]) ∧
    (∃ st st',
      deepScanSubmit (fun s => s) { jobs := [] }
          { brandName := "Acme", category := none, competitorUrls := ["b.com", "a.com"] }
        = Except.ok st ∧
      deepScanSubmit (fun s => s) { jobs := [] }
          { brandName := "Acme", category := some "", competitorUrls := ["a.com", "b.com"] }
        = Except.ok st' ∧
      st.2 = st'.2) :=
  ⟨⟨by decide, by decide, by decide, by decide⟩,
    c2_fingerprint_determinism (fun s => s) { jobs := [] } { jobs := [] } "Acme" none
      (some "") ["b.com", "a.com"] ["a.com", "b.com"] (by decide) (by decide) (by decide)
      (by decide)⟩

/-- Claim C3: when the queue already holds a job (queued, active or
completed) whose key equals the submission's fingerprint, the submission does
not create a second job — the queue is returned unchanged and the caller
receives the existing job's id, which is the fingerprint.  The queue's
add-with-jobId semantics is `queueAdd`, modelled from the spec. -/
theorem c3_idempotent_resubmission (hash : String → String) (q : QueueState)
    (b : String) (c : Option String) (urls : List String) (j : QueueJob)
    (hb : b ≠ "") (hu : urls ≠ [])
    (hj : j ∈ q.jobs) (hid : j.id = fingerprint hash b c urls)
    (_hstate : j.state = JobState.queued ∨ j.state = JobState.active ∨
      j.state = JobState.completed) :
    deepScanSubmit hash q { brandName := b, category := c, competitorUrls := urls }
      = Except.ok (q, fingerprint hash b c urls) := by
  unfold deepScanSubmit
  rw [if_neg (by simp [hb, hu]), queueAdd_of_mem hj hid]

/-- The queued job already held by the queue in the C3 example. -/
def jW : QueueJob :=
  { id := fingerprint (fun s => s) "Acme" none ["a.com"]
  , data := { brandName := "Acme", category := none, competitorUrls := ["a.com"] }
  , state := .queued }

/-- The queue contents in the C3 example. -/
def qW : QueueState := { jobs := [jW] }

set_option maxRecDepth 8000 in
theorem c3_idempotent_resubmission_witness :
    ("Acme" ≠ "" ∧ (["a.com"] : List String) ≠ [] ∧ jW ∈ qW.jobs ∧
      jW.id = fingerprint (fun s => s) "Acme" none ["a.com"] ∧
      (jW.state = JobState.queued ∨ jW.state = JobState.active ∨
        jW.state = JobState.completed)) ∧
    deepScanSubmit (fun s => s) qW
        { brandName := "Acme", category := none, competitorUrls := ["a.com"] }
      = Except.ok (qW, fingerprint (fun s => s) "Acme" none ["a.com"]) :=
  ⟨⟨by decide, by decide, List.mem_singleton.mpr rfl, rfl, Or.inl rfl⟩,
    c3_idempotent_resubmission (fun s => s) qW "Acme" none ["a.com"] jW (by decide)
      (by decide) (List.mem_singleton.mpr rfl) rfl (Or.inl rfl)⟩
